import Mathlib

/-!
Shallow embedding of `src/server.py` (a Flask service that detects a
representative sleeve color for a Roblox texture).

Modelling conventions:
* A decoded PIL image (after `img.convert("RGBA")`) is an `Img`: a width, a
  height and a pixel function returning the four 8-bit channels (r, g, b, a).
  8-bit-ness of channels is carried as a hypothesis where a theorem needs it.
* Python lists of channel values (`[r, g, b]`) are `List Int`: the server can
  store arbitrary integers through `/add_override` (it never range-checks).
* `requests.get` + `Image.open` + the numpy pipeline preamble are an oracle
  `fetch : String → Option Img`; `none` stands for any raised exception on the
  fetch/decode path (network error, `raise_for_status`, timeout, undecodable
  bytes), all of which land in the single `except Exception` handler.
* `int(width * 0.7)` etc. are embedded as the rational floors `width * 7 / 10`;
  Python evaluates these in binary floating point, which can shift a bound by
  one pixel for some widths, but no theorem below depends on the exact bound
  (the region-independent theorems are proved for arbitrary area lists).
* `np.mean(...).astype(int)` on nonnegative data truncates; it is embedded as
  exact natural-number floor division.
* `@lru_cache(maxsize=100)` is an explicit most-recently-used-first association
  list with capacity 100: a hit moves the entry to the front, a miss runs the
  (undecorated) function body, inserts the result at the front and drops the
  least recently used entry when over capacity.  Note that the decorator
  intercepts the call *before* the function body runs, so the cache is
  consulted before the override table and the body's return value — override
  or not — is memoized.
* The `SHIRT_OVERRIDES` dict is an insertion-ordered association list with
  unique keys; `d[k] = v` replaces in place or appends a fresh key at the end.
-/

namespace SleeveDetector

/-- One RGBA pixel as produced by `img.convert("RGBA")` (channels are 8-bit
in the real program). -/
structure RGBA where
  r : Nat
  g : Nat
  b : Nat
  a : Nat
deriving DecidableEq, Repr

/-- A decoded image: dimensions plus a pixel lookup `px x y` (column, row). -/
structure Img where
  width : Nat
  height : Nat
  px : Nat → Nat → RGBA

/-- A Python color list `[r, g, b]` (the server never range-checks overrides,
so channels are modelled as unconstrained integers). -/
abbrev Color := List Int

/-- The sentinel `[255, 255, 255]` returned on any failure or empty pixel set. -/
def white : Color := [255, 255, 255]

/-- `img.crop((x0, y0, x1, y1))` flattened row-major, exactly as
`np.array(region)[mask]` enumerates pixels (rows outer, columns inner);
pixel `(i, j)` of the crop is pixel `(x0+i, y0+j)` of the image. -/
def cropPixels (img : Img) (x0 y0 x1 y1 : Nat) : List RGBA :=
  (List.range (y1 - y0)).flatMap fun j =>
    (List.range (x1 - x0)).map fun i => img.px (x0 + i) (y0 + j)

/-- `pixels[pixels[:, :, 3] > 128]`: keep pixels whose alpha strictly exceeds
128. -/
def opaqueFilter (pixels : List RGBA) : List RGBA :=
  pixels.filter fun p => decide (128 < p.a)

/-- The four fixed `detection_areas` (Right Sleeve, Left Sleeve, Full Arm,
Shoulder).  `int(width * 0.7)` is embedded as the rational floor
`width * 7 / 10` (see the header note on floating point). -/
def detectionAreas (w h : Nat) : List (Nat × Nat × Nat × Nat) :=
  [ (w * 7 / 10, h * 4 / 10, w * 9 / 10, h * 6 / 10),
    (w * 1 / 10, h * 4 / 10, w * 3 / 10, h * 6 / 10),
    (w * 1 / 10, h * 3 / 10, w * 9 / 10, h * 7 / 10),
    (w * 6 / 10, h * 2 / 10, w * 8 / 10, h * 4 / 10) ]

/-- The `all_opaque_pixels` accumulation loop over a list of areas.  The
code's `if len(region_opaque_pixels) > 0: all_opaque_pixels.extend(...)` is
the same as unconditionally extending, since extending by an empty list is a
no-op. -/
def pooledOpaque (img : Img) (areas : List (Nat × Nat × Nat × Nat)) : List RGBA :=
  areas.flatMap fun a => opaqueFilter (cropPixels img a.1 a.2.1 a.2.2.1 a.2.2.2)

/-- `np.mean([p[:3] for p in pixels], axis=0).astype(int).tolist()`:
per-channel arithmetic mean truncated to an integer.  Only ever called on a
nonempty list in the program (Lean's `x / 0 = 0` is never exercised under
that guard). -/
def meanColor (pixels : List RGBA) : Color :=
  [ ((pixels.map (fun p => p.r)).sum / pixels.length : Nat),
    ((pixels.map (fun p => p.g)).sum / pixels.length : Nat),
    ((pixels.map (fun p => p.b)).sum / pixels.length : Nat) ]

/-- The image-processing part of `detect_sleeve_color` (everything after a
successful fetch and decode), parametric in the list of sampling areas. -/
def detectFromImageWith (img : Img) (areas : List (Nat × Nat × Nat × Nat)) : Color :=
  if (pooledOpaque img areas).length = 0 then
    if (opaqueFilter (cropPixels img 0 0 img.width img.height)).length = 0 then white
    else meanColor (opaqueFilter (cropPixels img 0 0 img.width img.height))
  else meanColor (pooledOpaque img areas)

/-- The image-processing part of `detect_sleeve_color` with the four fixed
areas, as in the source. -/
def detectFromImage (img : Img) : Color :=
  detectFromImageWith img (detectionAreas img.width img.height)

/-- Lookup in an association list keyed by texture id (Python `k in d` /
`d[k]`, and the lru_cache's internal dictionary lookup). -/
def lookupTable (m : List (String × Color)) (k : String) : Option Color :=
  (m.find? fun p => p.1 == k).map fun p => p.2

/-- Python `d[k] = v` on an insertion-ordered dict with unique keys: replace
in place if the key is present, otherwise append at the end. -/
def setTable : List (String × Color) → String → Color → List (String × Color)
  | [], k, v => [(k, v)]
  | p :: rest, k, v => if p.1 == k then (k, v) :: rest else p :: setTable rest k v

/-- `@lru_cache(maxsize=100)`. -/
def CACHE_MAXSIZE : Nat := 100

/-- On a cache hit the lru_cache moves the entry to the most-recent end
(here: the front). -/
def cacheTouch (c : List (String × Color)) (k : String) : List (String × Color) :=
  match c.find? (fun p => p.1 == k) with
  | some e => e :: c.filter (fun p => !(p.1 == k))
  | none => c

/-- On a cache miss the lru_cache stores the computed value as most recent
and evicts the least recently used entry once over capacity. -/
def cacheInsert (c : List (String × Color)) (k : String) (v : Color) : List (String × Color) :=
  (k, v) :: (if CACHE_MAXSIZE ≤ c.length then c.dropLast else c)

/-- The process-wide mutable state: the `SHIRT_OVERRIDES` dict and the
lru_cache's memo table for `detect_sleeve_color` (most recent first). -/
structure ServerState where
  overrides : List (String × Color)
  cache : List (String × Color)
deriving DecidableEq, Repr

/-- The *undecorated* body of `detect_sleeve_color` (lines 73-143): override
check, then fetch + decode + sample + filter + aggregate, with the
`except Exception` handler collapsing every fetch/decode failure to the
sentinel.  The override lookup itself cannot raise. -/
def detect_sleeve_color_body (fetch : String → Option Img)
    (overrides : List (String × Color)) (texture_id : String) : Color :=
  match lookupTable overrides texture_id with
  | some c => c
  | none =>
    match fetch texture_id with
    | none => white
    | some img => detectFromImage img

/-- The observable outcome of one `detect_sleeve_color(texture_id)` call:
the returned color, the server state afterwards, and whether the remote
asset source was contacted during the call. -/
structure DetectResult where
  color : Color
  state : ServerState
  fetched : Bool
deriving DecidableEq, Repr

/-- `detect_sleeve_color` as the callers see it: the lru_cache decorator
answers from its memo table *before* the function body (and hence before the
override check) runs; on a miss it runs the body and memoizes the returned
color, whether that color came from the override table or from detection.
`fetched` is true exactly when the body reached the `requests.get` call,
i.e. on a cache miss with no override present. -/
def detect_sleeve_color (fetch : String → Option Img) (s : ServerState)
    (texture_id : String) : DetectResult :=
  match lookupTable s.cache texture_id with
  | some c => ⟨c, { s with cache := cacheTouch s.cache texture_id }, false⟩
  | none =>
    let c := detect_sleeve_color_body fetch s.overrides texture_id
    ⟨c, { s with cache := cacheInsert s.cache texture_id c },
      (lookupTable s.overrides texture_id).isNone⟩

/-- The JSON reply of `POST /add_override`: HTTP status, the `success` flag,
and `total_overrides` (present only in the success reply). -/
structure OverrideResponse where
  status : Nat
  success : Bool
  total_overrides : Option Nat
deriving DecidableEq, Repr

/-- `add_override` (lines 184-199) on a parsed JSON payload:
`data.get('texture_id')` and `data.get('color')` are the two `Option`
arguments.  `not texture_id or not color or len(color) != 3` rejects a
missing key, an empty string, an empty list, and any color whose length is
not 3; otherwise the dict is updated and its new size reported.  (The 500
handler guards `request.json` itself and is outside this model.) -/
def add_override (s : ServerState) (texture_id : Option String)
    (color : Option Color) : OverrideResponse × ServerState :=
  match texture_id, color with
  | some t, some c =>
    if t == "" || c.isEmpty || c.length != 3 then
      (⟨400, false, none⟩, s)
    else
      let ov := setTable s.overrides t c
      (⟨200, true, some ov.length⟩, { s with overrides := ov })
  | _, _ => (⟨400, false, none⟩, s)

/-- Channel range check used to state the ColorTriple invariant claims. -/
def colorInRange (c : Color) : Bool :=
  c.all fun x => decide (0 ≤ x) && decide (x ≤ 255)

/-- Well-formedness the spec expects of the mutable state: every stored
color (override or cached) is a 3-element list. -/
def stateWF (s : ServerState) : Prop :=
  (∀ p ∈ s.overrides, p.2.length = 3) ∧ (∀ p ∈ s.cache, p.2.length = 3)

/-- A remote source serving a 4x4 image that is solid opaque black for every
texture id (detection yields `[0, 0, 0]`). -/
def envSolidBlack : String → Option Img :=
  fun _ => some ⟨4, 4, fun _ _ => ⟨0, 0, 0, 255⟩⟩

/-- A remote source on which every fetch (or decode) fails. -/
def envFail : String → Option Img :=
  fun _ => none

/-- A small image with varying 8-bit channel values, used as a concrete
input. -/
def imgVaried : Img :=
  ⟨4, 4, fun x y => ⟨x * 20 % 256, y * 30 % 256, (x + y) % 256, 255⟩⟩

/-! ### Helper lemmas about the table and cache operations -/

theorem lookupTable_setTable_self (m : List (String × Color)) (k : String) (v : Color) :
    lookupTable (setTable m k v) k = some v := by
  induction m with
  | nil => simp [setTable, lookupTable]
  | cons p rest ih =>
    by_cases h : p.1 == k
    · simp [setTable, h, lookupTable]
    · simp only [setTable, h, Bool.false_eq_true, if_false]
      unfold lookupTable
      rw [List.find?_cons_of_neg _ (by simp [h])]
      exact ih

theorem setTable_length (m : List (String × Color)) (k : String) (v : Color) :
    (setTable m k v).length =
      if m.any (fun p => p.1 == k) then m.length else m.length + 1 := by
  induction m with
  | nil => simp [setTable]
  | cons p rest ih =>
    by_cases h : p.1 == k
    · simp [setTable, h]
    · simp only [setTable, h, Bool.false_eq_true, if_false, List.length_cons, List.any_cons,
        Bool.false_or, ih]
      by_cases h2 : rest.any (fun p => p.1 == k) <;> simp [h2]

theorem lookupTable_cacheInsert_self (c : List (String × Color)) (k : String) (v : Color) :
    lookupTable (cacheInsert c k v) k = some v := by
  unfold cacheInsert lookupTable
  rw [List.find?_cons_of_pos _ (by simp)]
  rfl

theorem lookupTable_cacheTouch_self (c : List (String × Color)) (k : String) :
    lookupTable (cacheTouch c k) k = lookupTable c k := by
  unfold cacheTouch
  cases hf : c.find? (fun p => p.1 == k) with
  | none => rfl
  | some e =>
    have he := List.find?_some hf
    show lookupTable (e :: c.filter fun p => !(p.1 == k)) k = lookupTable c k
    unfold lookupTable
    rw [hf, List.find?_cons]
    simp [he]

theorem lookupTable_mem {m : List (String × Color)} {k : String} {v : Color}
    (h : lookupTable m k = some v) : ∃ p ∈ m, p.2 = v := by
  unfold lookupTable at h
  rw [Option.map_eq_some'] at h
  obtain ⟨e, he, hev⟩ := h
  exact ⟨e, List.mem_of_find?_eq_some he, hev⟩

/-! ### Helper lemmas about the pixel pipeline -/

theorem mem_cropPixels {img : Img} {x0 y0 x1 y1 : Nat} {q : RGBA}
    (h : q ∈ cropPixels img x0 y0 x1 y1) : ∃ x y, q = img.px x y := by
  unfold cropPixels at h
  simp only [List.mem_flatMap, List.mem_map, List.mem_range] at h
  obtain ⟨j, _, i, _, rfl⟩ := h
  exact ⟨x0 + i, y0 + j, rfl⟩

theorem mem_pooledOpaque {img : Img} {areas : List (Nat × Nat × Nat × Nat)} {q : RGBA}
    (h : q ∈ pooledOpaque img areas) : ∃ x y, q = img.px x y := by
  unfold pooledOpaque at h
  rw [List.mem_flatMap] at h
  obtain ⟨a, _, hq⟩ := h
  exact mem_cropPixels (List.mem_filter.mp hq).1

theorem length_cropPixels (img : Img) (x0 y0 x1 y1 : Nat) :
    (cropPixels img x0 y0 x1 y1).length = (y1 - y0) * (x1 - x0) := by
  unfold cropPixels
  rw [List.length_flatMap]
  simp [Function.comp_def, List.map_const', List.sum_replicate, smul_eq_mul]

theorem meanColor_const (l : List RGBA) (p : RGBA) (hne : l ≠ [])
    (h : ∀ q ∈ l, q = p) :
    meanColor l = [(p.r : Int), (p.g : Int), (p.b : Int)] := by
  have hlen : 0 < l.length := List.length_pos.mpr hne
  have hsum : ∀ f : RGBA → Nat, (l.map f).sum = l.length * f p := by
    intro f
    have : l.map f = List.replicate l.length (f p) := by
      rw [← List.length_map l f]
      apply List.eq_replicate_iff.mpr
      refine ⟨rfl, ?_⟩
      intro b hb
      obtain ⟨q, hq, rfl⟩ := List.mem_map.mp hb
      rw [h q hq]
    rw [this, List.sum_replicate, smul_eq_mul]
  unfold meanColor
  rw [hsum (fun q => q.r), hsum (fun q => q.g), hsum (fun q => q.b),
    Nat.mul_div_cancel_left _ hlen, Nat.mul_div_cancel_left _ hlen,
    Nat.mul_div_cancel_left _ hlen]

theorem meanColor_in_range (l : List RGBA)
    (h : ∀ q ∈ l, q.r ≤ 255 ∧ q.g ≤ 255 ∧ q.b ≤ 255) :
    colorInRange (meanColor l) = true := by
  have hdiv : ∀ f : RGBA → Nat, (∀ q ∈ l, f q ≤ 255) →
      (l.map f).sum / l.length ≤ 255 := by
    intro f hf
    apply Nat.div_le_of_le_mul'
    have := List.sum_le_card_nsmul (l.map f) 255 ?_
    · simpa [smul_eq_mul, List.length_map] using this
    · intro x hx
      obtain ⟨q, hq, rfl⟩ := List.mem_map.mp hx
      exact hf q hq
  have hr := hdiv (fun q => q.r) (fun q hq => (h q hq).1)
  have hg := hdiv (fun q => q.g) (fun q hq => (h q hq).2.1)
  have hb := hdiv (fun q => q.b) (fun q hq => (h q hq).2.2)
  unfold colorInRange meanColor
  simp only [List.all_cons, List.all_nil, Bool.and_eq_true, decide_eq_true_eq,
    Bool.and_true]
  refine ⟨⟨Int.natCast_nonneg _, ?_⟩, ⟨Int.natCast_nonneg _, ?_⟩, Int.natCast_nonneg _, ?_⟩
  · exact_mod_cast hr
  · exact_mod_cast hg
  · exact_mod_cast hb

theorem detectFromImageWith_length (img : Img) (areas : List (Nat × Nat × Nat × Nat)) :
    (detectFromImageWith img areas).length = 3 := by
  unfold detectFromImageWith
  split
  · split
    · rfl
    · rfl
  · rfl

/-! ### Claim theorems -/

/-- C8: `POST /add_override` with a non-empty `texture_id` and a 3-element
color returns HTTP 200 with `success: true`; the reported `total_overrides`
is the old table size plus one when the key is new and exactly the old table
size when the key is already present (the stored color is replaced — as the
last conjunct shows — and the table does not grow). -/
theorem add_override_total_overrides (s : ServerState) (t : String) (c : Color)
    (ht : t ≠ "") (hc : c.length = 3) :
    (add_override s (some t) (some c)).1.status = 200 ∧
    (add_override s (some t) (some c)).1.success = true ∧
    (add_override s (some t) (some c)).1.total_overrides =
      some (if s.overrides.any (fun p => p.1 == t) then s.overrides.length
            else s.overrides.length + 1) ∧
    lookupTable (add_override s (some t) (some c)).2.overrides t = some c := by
  have hemp : c.isEmpty = false := by
    cases c with
    | nil => simp at hc
    | cons a l => rfl
  have htb : (t == "") = false := by
    simp [ht]
  unfold add_override
  simp [htb, hemp, hc, setTable_length, lookupTable_setTable_self]

/-- Witness for C8 at a concrete state: inserting key "5" into a table that
already holds key "4" succeeds and reports two overrides. -/
theorem add_override_total_overrides_witness :
    (add_override ⟨[("4", [1, 2, 3])], []⟩ (some "5") (some [7, 8, 9])).1.status = 200 ∧
    (add_override ⟨[("4", [1, 2, 3])], []⟩ (some "5") (some [7, 8, 9])).1.success = true ∧
    (add_override ⟨[("4", [1, 2, 3])], []⟩ (some "5") (some [7, 8, 9])).1.total_overrides =
      some (if [("4", [1, 2, 3])].any (fun p => p.1 == "5") then [("4", [1, 2, 3])].length
            else [("4", [1, 2, 3])].length + 1) ∧
    lookupTable (add_override ⟨[("4", [1, 2, 3])], []⟩ (some "5") (some [7, 8, 9])).2.overrides "5"
      = some [7, 8, 9] :=
  add_override_total_overrides ⟨[("4", [1, 2, 3])], []⟩ "5" [7, 8, 9]
    (by decide) (by decide)

/-- C7: with no override for `id`, two consecutive `detect_sleeve_color`
calls against the same remote source return the same color, and the second
call performs no remote fetch because the lru_cache answers it. -/
theorem detect_cache_idempotent (fetch : String → Option Img) (s : ServerState)
    (id : String) (h : lookupTable s.overrides id = none) :
    (detect_sleeve_color fetch (detect_sleeve_color fetch s id).state id).color
      = (detect_sleeve_color fetch s id).color ∧
    (detect_sleeve_color fetch (detect_sleeve_color fetch s id).state id).fetched = false := by
  cases hcl : lookupTable s.cache id with
  | some c =>
    have h2 : lookupTable (cacheTouch s.cache id) id = some c := by
      rw [lookupTable_cacheTouch_self, hcl]
    unfold detect_sleeve_color
    rw [hcl]
    simp only []
    rw [h2]
    exact ⟨rfl, rfl⟩
  | none =>
    have h2 := lookupTable_cacheInsert_self s.cache id
      (detect_sleeve_color_body fetch s.overrides id)
    unfold detect_sleeve_color
    rw [hcl]
    simp only []
    rw [h2]
    exact ⟨rfl, rfl⟩

/-- Witness for C7: a fresh server state, a stable black remote source and
texture id "1". -/
theorem detect_cache_idempotent_witness :
    (detect_sleeve_color envSolidBlack (detect_sleeve_color envSolidBlack ⟨[], []⟩ "1").state "1").color
      = (detect_sleeve_color envSolidBlack ⟨[], []⟩ "1").color ∧
    (detect_sleeve_color envSolidBlack (detect_sleeve_color envSolidBlack ⟨[], []⟩ "1").state "1").fetched
      = false :=
  detect_cache_idempotent envSolidBlack ⟨[], []⟩ "1" rfl

/-- C4: detection never raises: when the fetch/decode path fails (modelled
by the oracle returning `none`, covering network errors, non-success
statuses, timeouts, undecodable bytes and any other exception in the body)
and the call actually reaches that path (no cached entry, no override), the
returned color is the sentinel white; and in all cases the call returns a
3-element color list, provided every color stored in the state is one. -/
theorem detect_never_raises :
    (∀ (fetch : String → Option Img) (s : ServerState) (id : String),
      fetch id = none → lookupTable s.overrides id = none →
      lookupTable s.cache id = none →
      (detect_sleeve_color fetch s id).color = white) ∧
    (∀ (fetch : String → Option Img) (s : ServerState) (id : String),
      stateWF s → (detect_sleeve_color fetch s id).color.length = 3) := by
  constructor
  · intro fetch s id hf ho hc
    unfold detect_sleeve_color
    rw [hc]
    simp only []
    unfold detect_sleeve_color_body
    rw [ho, hf]
  · intro fetch s id hwf
    unfold detect_sleeve_color
    cases hc : lookupTable s.cache id with
    | some c =>
      obtain ⟨p, hp, hpv⟩ := lookupTable_mem hc
      simpa [hpv] using hwf.2 p hp
    | none =>
      simp only []
      unfold detect_sleeve_color_body
      cases ho : lookupTable s.overrides id with
      | some c =>
        obtain ⟨p, hp, hpv⟩ := lookupTable_mem ho
        simpa [hpv] using hwf.1 p hp
      | none =>
        cases hfv : fetch id with
        | none => rfl
        | some img => exact detectFromImageWith_length img _

/-- Witness for C4: a failing fetch on a fresh state returns the sentinel,
and the result is a 3-element list. -/
theorem detect_never_raises_witness :
    (detect_sleeve_color envFail ⟨[], []⟩ "1").color = white ∧
    (detect_sleeve_color envFail ⟨[], []⟩ "1").color.length = 3 :=
  ⟨detect_never_raises.1 envFail ⟨[], []⟩ "1" rfl rfl rfl,
   detect_never_raises.2 envFail ⟨[], []⟩ "1"
     ⟨fun p hp => by simp at hp, fun p hp => by simp at hp⟩⟩

/-- C10: when the fetch fails on an uncached, non-overridden id, the call
returns the sentinel white and the lru_cache memoizes the sentinel under
that id; any later call in a state whose cache still maps the id to white
returns white without contacting the remote source — even with a remote
source that would now succeed (see the witness). -/
theorem failed_detection_sentinel_cached (fetch : String → Option Img)
    (s : ServerState) (id : String) (hf : fetch id = none)
    (ho : lookupTable s.overrides id = none)
    (hc : lookupTable s.cache id = none) :
    (detect_sleeve_color fetch s id).color = white ∧
    lookupTable (detect_sleeve_color fetch s id).state.cache id = some white ∧
    (∀ (fetch2 : String → Option Img) (s2 : ServerState),
      lookupTable s2.cache id = some white →
      (detect_sleeve_color fetch2 s2 id).color = white ∧
      (detect_sleeve_color fetch2 s2 id).fetched = false) := by
  have hbody : detect_sleeve_color_body fetch s.overrides id = white := by
    unfold detect_sleeve_color_body
    rw [ho, hf]
  refine ⟨?_, ?_, ?_⟩
  · unfold detect_sleeve_color
    rw [hc]
    simp only []
    exact hbody
  · unfold detect_sleeve_color
    rw [hc]
    simp only []
    rw [hbody]
    exact lookupTable_cacheInsert_self s.cache id white
  · intro fetch2 s2 h2
    unfold detect_sleeve_color
    rw [h2]
    exact ⟨rfl, rfl⟩

/-- Witness for C10: after a failed detection of "1" on a fresh state, a
second call against a now-healthy remote source (solid black) still returns
the cached sentinel white and performs no fetch. -/
theorem failed_detection_sentinel_cached_witness :
    (detect_sleeve_color envFail ⟨[], []⟩ "1").color = white ∧
    (detect_sleeve_color envSolidBlack (detect_sleeve_color envFail ⟨[], []⟩ "1").state "1").color
      = white ∧
    (detect_sleeve_color envSolidBlack (detect_sleeve_color envFail ⟨[], []⟩ "1").state "1").fetched
      = false := by
  have h := failed_detection_sentinel_cached envFail ⟨[], []⟩ "1" rfl rfl rfl
  exact ⟨h.1, (h.2.2 envSolidBlack _ h.2.1).1, (h.2.2 envSolidBlack _ h.2.1).2⟩

/-- C5: for any decoded image in which every pixel's alpha is at most 128
(128 itself included — the `> 128` threshold is strict), detection returns
the sentinel white: both the four fixed regions and the whole-image fallback
find no opaque pixel. -/
theorem all_transparent_detects_white (img : Img)
    (h : ∀ x y, (img.px x y).a ≤ 128) :
    detectFromImage img = white := by
  have hfilter : ∀ x0 y0 x1 y1, opaqueFilter (cropPixels img x0 y0 x1 y1) = [] := by
    intro x0 y0 x1 y1
    apply List.filter_eq_nil_iff.mpr
    intro q hq
    obtain ⟨x, y, rfl⟩ := mem_cropPixels hq
    simp [Nat.not_lt.mpr (h x y)]
  have hpool : pooledOpaque img (detectionAreas img.width img.height) = [] := by
    unfold pooledOpaque
    apply List.flatMap_eq_nil_iff.mpr
    intro a _
    exact hfilter _ _ _ _
  unfold detectFromImage detectFromImageWith
  rw [hpool, hfilter]
  simp

/-- Witness for C5: a 2x2 image whose alpha channel is exactly 128
everywhere detects as white. -/
theorem all_transparent_detects_white_witness :
    detectFromImage ⟨2, 2, fun _ _ => ⟨5, 6, 7, 128⟩⟩ = white :=
  all_transparent_detects_white ⟨2, 2, fun _ _ => ⟨5, 6, 7, 128⟩⟩
    (fun _ _ => Nat.le_refl 128)

/-- C6: a nonempty image filled with one solid color whose alpha strictly
exceeds 128 detects as exactly that color, for every width and height —
whether the four fixed regions capture pixels or the whole-image fallback
does (both branches of the proof end in the same exact mean). -/
theorem solid_color_detected (w h r g b a : Nat) (hw : 1 ≤ w) (hh : 1 ≤ h)
    (ha : 128 < a) :
    detectFromImage ⟨w, h, fun _ _ => ⟨r, g, b, a⟩⟩ = [(r : Int), (g : Int), (b : Int)] := by
  have hall : ∀ x0 y0 x1 y1, ∀ q ∈ cropPixels ⟨w, h, fun _ _ => ⟨r, g, b, a⟩⟩ x0 y0 x1 y1,
      q = (⟨r, g, b, a⟩ : RGBA) := by
    intro x0 y0 x1 y1 q hq
    obtain ⟨x, y, rfl⟩ := mem_cropPixels hq
    rfl
  have hfil : ∀ x0 y0 x1 y1,
      opaqueFilter (cropPixels ⟨w, h, fun _ _ => ⟨r, g, b, a⟩⟩ x0 y0 x1 y1)
        = cropPixels ⟨w, h, fun _ _ => ⟨r, g, b, a⟩⟩ x0 y0 x1 y1 := by
    intro x0 y0 x1 y1
    apply List.filter_eq_self.mpr
    intro q hq
    rw [hall x0 y0 x1 y1 q hq]
    simp [ha]
  unfold detectFromImage detectFromImageWith
  by_cases hp : (pooledOpaque ⟨w, h, fun _ _ => ⟨r, g, b, a⟩⟩
      (detectionAreas w h)).length = 0
  · rw [if_pos hp, hfil, length_cropPixels]
    have hlc : (h - 0) * (w - 0) ≠ 0 := by
      simp only [Nat.sub_zero]
      exact Nat.mul_ne_zero (by omega) (by omega)
    rw [if_neg hlc]
    apply meanColor_const _ (⟨r, g, b, a⟩ : RGBA)
    · intro hnil
      apply hlc
      rw [← length_cropPixels ⟨w, h, fun _ _ => ⟨r, g, b, a⟩⟩ 0 0 w h, hnil]
      rfl
    · exact hall 0 0 w h
  · rw [if_neg hp]
    apply meanColor_const _ (⟨r, g, b, a⟩ : RGBA)
    · intro hnil
      rw [hnil] at hp
      exact hp rfl
    · intro q hq
      obtain ⟨x, y, rfl⟩ := mem_pooledOpaque hq
      rfl

/-- Witness for C6: a 3x3 solid opaque image of color (10, 20, 30) detects
as exactly [10, 20, 30]. -/
theorem solid_color_detected_witness :
    detectFromImage ⟨3, 3, fun _ _ => ⟨10, 20, 30, 255⟩⟩ = [(10 : Int), 20, 30] :=
  solid_color_detected 3 3 10 20 30 255 (by decide) (by decide) (by decide)

/-- C9: the detected color is invariant under any permutation of the list
of sampling areas: pooling is a flatMap whose multiset of pixels, hence the
per-channel sums, the pooled pixel count and the empty-pool test, do not
depend on the processing order (aggregation is modelled in exact
arithmetic).  Instantiating the area list with `detectionAreas` covers the
four fixed regions of the program. -/
theorem region_order_irrelevant (img : Img)
    (areas areas2 : List (Nat × Nat × Nat × Nat)) (hp : areas.Perm areas2) :
    detectFromImageWith img areas = detectFromImageWith img areas2 := by
  have hperm : (pooledOpaque img areas).Perm (pooledOpaque img areas2) :=
    hp.flatMap_right _
  unfold detectFromImageWith
  rw [hperm.length_eq]
  by_cases h0 : (pooledOpaque img areas2).length = 0
  · rw [if_pos h0, if_pos h0]
  · rw [if_neg h0, if_neg h0]
    unfold meanColor
    rw [(hperm.map (fun p => p.r)).sum_eq, (hperm.map (fun p => p.g)).sum_eq,
      (hperm.map (fun p => p.b)).sum_eq, hperm.length_eq]

/-- Witness for C9: on a concrete varied 4x4 image, processing the four
fixed regions in reverse order yields the same color. -/
theorem region_order_irrelevant_witness :
    detectFromImageWith imgVaried (detectionAreas 4 4)
      = detectFromImageWith imgVaried ((detectionAreas 4 4).reverse) :=
  region_order_irrelevant imgVaried (detectionAreas 4 4)
    ((detectionAreas 4 4).reverse) (List.reverse_perm _).symm

/-- C1 fails on the code: `@lru_cache` wraps the whole of
`detect_sleeve_color`, override check included, so the memo table is
consulted *before* the override table.  Concretely: texture "1" is detected
(solid black, `[0, 0, 0]`) and memoized; `add_override` then stores
`[10, 20, 30]` for "1"; a subsequent detect call still returns the stale
`[0, 0, 0]`, not the override. -/
theorem override_after_cache_is_ignored :
    lookupTable (add_override (detect_sleeve_color envSolidBlack ⟨[], []⟩ "1").state
        (some "1") (some [10, 20, 30])).2.overrides "1" = some [10, 20, 30] ∧
    (detect_sleeve_color envSolidBlack
        (add_override (detect_sleeve_color envSolidBlack ⟨[], []⟩ "1").state
          (some "1") (some [10, 20, 30])).2 "1").color = [0, 0, 0] ∧
    (detect_sleeve_color envSolidBlack
        (add_override (detect_sleeve_color envSolidBlack ⟨[], []⟩ "1").state
          (some "1") (some [10, 20, 30])).2 "1").color ≠ [10, 20, 30] := by
  decide

/-- C2 fails on the code, for the same reason as C1: on a cache miss the
body's return value is memoized even when it came from the override table,
and on a cache hit the override table is never consulted.  Concretely: with
override `[1, 2, 3]` for "1" and an empty cache, a detect call answered
from the override writes `[1, 2, 3]` into the cache; after the override is
replaced by `[9, 9, 9]`, a further detect call still returns the memoized
`[1, 2, 3]` — the override table was not consulted fresh. -/
theorem override_memoized_and_stale :
    (detect_sleeve_color envFail ⟨[("1", [1, 2, 3])], []⟩ "1").color = [1, 2, 3] ∧
    lookupTable (detect_sleeve_color envFail ⟨[("1", [1, 2, 3])], []⟩ "1").state.cache "1"
      = some [1, 2, 3] ∧
    lookupTable (add_override (detect_sleeve_color envFail ⟨[("1", [1, 2, 3])], []⟩ "1").state
        (some "1") (some [9, 9, 9])).2.overrides "1" = some [9, 9, 9] ∧
    (detect_sleeve_color envFail
        (add_override (detect_sleeve_color envFail ⟨[("1", [1, 2, 3])], []⟩ "1").state
          (some "1") (some [9, 9, 9])).2 "1").color = [1, 2, 3] ∧
    (detect_sleeve_color envFail
        (add_override (detect_sleeve_color envFail ⟨[("1", [1, 2, 3])], []⟩ "1").state
          (some "1") (some [9, 9, 9])).2 "1").fetched = false := by
  decide

/-- C3 counterexample: `add_override` checks only that the color has three
elements, never their range, so `[300, -5, 1000]` is accepted with a 200
`success: true` reply, stored, and returned verbatim by a later detect call
— a ColorTriple held and returned by the system with channels outside
[0, 255]. -/
theorem out_of_range_override_accepted :
    (add_override ⟨[], []⟩ (some "7") (some [300, -5, 1000])).1.success = true ∧
    (add_override ⟨[], []⟩ (some "7") (some [300, -5, 1000])).1.status = 200 ∧
    (detect_sleeve_color envFail
        (add_override ⟨[], []⟩ (some "7") (some [300, -5, 1000])).2 "7").color
      = [300, -5, 1000] ∧
    colorInRange [300, -5, 1000] = false := by
  decide

/-- C3 amended: the range invariant holds for every color the *detection
path* produces — if every pixel channel of the decoded image is 8-bit
(≤ 255, as `img.convert("RGBA")` guarantees), the detected color has all
channels in [0, 255] (truncated means of 8-bit values; the sentinel white
qualifies too).  Colors entering through `/add_override` are exempt: the
boundary never range-checks them (see the counterexample). -/
theorem detection_colors_in_range (img : Img)
    (h8 : ∀ x y, (img.px x y).r ≤ 255 ∧ (img.px x y).g ≤ 255 ∧ (img.px x y).b ≤ 255) :
    colorInRange (detectFromImage img) = true := by
  unfold detectFromImage detectFromImageWith
  by_cases hp : (pooledOpaque img (detectionAreas img.width img.height)).length = 0
  · rw [if_pos hp]
    by_cases hf : (opaqueFilter (cropPixels img 0 0 img.width img.height)).length = 0
    · rw [if_pos hf]
      decide
    · rw [if_neg hf]
      apply meanColor_in_range
      intro q hq
      obtain ⟨x, y, rfl⟩ := mem_cropPixels (List.mem_filter.mp hq).1
      exact h8 x y
  · rw [if_neg hp]
    apply meanColor_in_range
    intro q hq
    obtain ⟨x, y, rfl⟩ := mem_pooledOpaque hq
    exact h8 x y

/-- Witness for the amended C3: the color detected on a concrete varied
8-bit image has all channels in range. -/
theorem detection_colors_in_range_witness :
    colorInRange (detectFromImage imgVaried) = true :=
  detection_colors_in_range imgVaried (fun x y =>
    ⟨Nat.le_of_lt_succ (Nat.mod_lt _ (by decide)),
     Nat.le_of_lt_succ (Nat.mod_lt _ (by decide)),
     Nat.le_of_lt_succ (Nat.mod_lt _ (by decide))⟩)

end SleeveDetector
